import Mathlib

/-!
Verification of `collie/model/matrix_factorization.py`
(`MatrixFactorizationModel`): a matrix-factorization recommender whose
forward pass combines user/item embedding lookups with per-entity bias
terms, applies dropout to the embedding vectors during training, and
optionally squashes the raw score into a configured `y_range` with a
sigmoid.

Real (float) tensor arithmetic is modelled over `ℝ`.  Dropout randomness
is passed explicitly: for each batch position and embedding coordinate a
uniform sample `r ∈ [0, 1)` is supplied, and an element is dropped when
`r < p` (surviving elements are rescaled by `1 / (1 - p)`, as in
`torch.nn.Dropout`).
-/

namespace Collie

noncomputable section

/-- The logistic sigmoid, as computed by `torch.sigmoid`:
`sigmoid x = 1 / (1 + exp (-x))`. -/
def sigmoid (x : ℝ) : ℝ := 1 / (1 + Real.exp (-x))

/-- One element of `torch.nn.Dropout`: in training mode, the value is
zeroed when the uniform sample `r` falls below the dropout probability
`p`, and rescaled by `1 / (1 - p)` otherwise; in evaluation mode the
value passes through unchanged. -/
def dropoutElem (training : Bool) (p r x : ℝ) : ℝ :=
  if training then (if r < p then 0 else x / (1 - p)) else x

/-- Dropout applied elementwise to a vector, the coordinate `k` of the
vector drawing the uniform sample `r k`; the first argument of the
recursion is the coordinate of the head. -/
def dropoutVecFrom (training : Bool) (p : ℝ) (r : ℕ → ℝ) : ℕ → List ℝ → List ℝ
  | _, [] => []
  | k, x :: xs => dropoutElem training p (r k) x :: dropoutVecFrom training p r (k + 1) xs

/-- `self.dropout(v)` for a single embedding vector `v`. -/
def dropoutVec (training : Bool) (p : ℝ) (r : ℕ → ℝ) (v : List ℝ) : List ℝ :=
  dropoutVecFrom training p r 0 v

/-- `torch.mul(xs, ys).sum(axis=1)` restricted to one row: the sum of
the elementwise products of two vectors. -/
def dotSum (xs ys : List ℝ) : ℝ := (List.zipWith (fun a b => a * b) xs ys).sum

/-- Row lookup in an embedding table (`table(idx)` on one index). -/
def lookupRow (table : List (List ℝ)) (i : ℕ) : List ℝ := table.getD i []

/-- Bias lookup followed by `.squeeze(1)`: the single entry of the
`(1)`-shaped row of a bias table. -/
def squeezeLookup (table : List (List ℝ)) (i : ℕ) : ℝ := (table.getD i []).getD 0 0

/-- The state of a `MatrixFactorizationModel` after `_setup_model`:
the four parameter tables, the dropout probability, the optional
`y_range` hyperparameter and the train/eval mode flag. -/
structure MFModel where
  num_users : ℕ
  num_items : ℕ
  embedding_dim : ℕ
  dropout_p : ℝ
  user_embeddings : List (List ℝ)
  item_embeddings : List (List ℝ)
  user_biases : List (List ℝ)
  item_biases : List (List ℝ)
  y_range : Option (ℝ × ℝ)
  training : Bool

/-- The raw score of lines 144-148 for one (user, item) pair:
`torch.mul(dropout(user_emb), dropout(item_emb)).sum(axis=1)
 + user_biases(users).squeeze(1) + item_biases(items).squeeze(1)`,
with `ru`/`ri` the dropout samples for the user/item embedding vector. -/
def rawPred (m : MFModel) (ru ri : ℕ → ℝ) (u i : ℕ) : ℝ :=
  dotSum (dropoutVec m.training m.dropout_p ru (lookupRow m.user_embeddings u))
      (dropoutVec m.training m.dropout_p ri (lookupRow m.item_embeddings i))
    + squeezeLookup m.user_biases u + squeezeLookup m.item_biases i

/-- The `y_range` post-processing of lines 150-155: when a range is
configured, `torch.sigmoid(preds) * (y_range[1] - y_range[0]) + y_range[0]`;
otherwise the raw score passes through. -/
def applyYRange : Option (ℝ × ℝ) → ℝ → ℝ
  | none, s => s
  | some r, s => sigmoid s * (r.2 - r.1) + r.1

/-- `MatrixFactorizationModel.forward`: one prediction per batch
position, each the `y_range`-post-processed raw score of the pair at
that position.  `ru b` / `ri b` are the dropout samples used for batch
position `b`. -/
def forward (m : MFModel) (ru ri : ℕ → ℕ → ℝ) (users items : List ℕ) :
    List ℝ :=
  (List.range (min users.length items.length)).map fun b =>
    applyYRange m.y_range (rawPred m (ru b) (ri b) (users.getD b 0) (items.getD b 0))

/-- Modelled from the spec: `ZeroEmbedding` is defined in
`collie.model.base`, which is not part of the sources; the spec states
the bias tables it builds are `(num_embeddings × embedding_dim)`
parameter tables with every entry initialized to zero. -/
def ZeroEmbedding (num_embeddings embedding_dim : ℕ) : List (List ℝ) :=
  List.replicate num_embeddings (List.replicate embedding_dim (0 : ℝ))

/-- Modelled from the spec: `ScaledEmbedding` is defined in
`collie.model.base`, which is not part of the sources; the spec states
it builds a `(num_embeddings × embedding_dim)` table initialized with
small-scale random values, here supplied by the `init` sampler. -/
def ScaledEmbedding (num_embeddings embedding_dim : ℕ) (init : ℕ → ℕ → ℝ) :
    List (List ℝ) :=
  (List.range num_embeddings).map fun row => (List.range embedding_dim).map (init row)

/-- The hyperparameters `_setup_model` reads from `self.hparams`. -/
structure HParams where
  num_users : ℕ
  num_items : ℕ
  embedding_dim : ℕ
  dropout_p : ℝ
  y_range : Option (ℝ × ℝ)

/-- `MatrixFactorizationModel._setup_model`: allocates the two
`ZeroEmbedding` bias tables of width 1 and the two `ScaledEmbedding`
embedding tables of width `embedding_dim`, and the dropout layer with
probability `dropout_p`.  `uInit`/`iInit` are the random initializers
drawn by `ScaledEmbedding`, and `training` the module mode flag. -/
def setup_model (h : HParams) (uInit iInit : ℕ → ℕ → ℝ) (training : Bool) : MFModel :=
  { num_users := h.num_users
    num_items := h.num_items
    embedding_dim := h.embedding_dim
    dropout_p := h.dropout_p
    user_embeddings := ScaledEmbedding h.num_users h.embedding_dim uInit
    item_embeddings := ScaledEmbedding h.num_items h.embedding_dim iInit
    user_biases := ZeroEmbedding h.num_users 1
    item_biases := ZeroEmbedding h.num_items 1
    y_range := h.y_range
    training := training }

/-! ### Helper lemmas -/

lemma sigmoid_pos (x : ℝ) : 0 < sigmoid x := by
  unfold sigmoid
  positivity

lemma sigmoid_lt_one (x : ℝ) : sigmoid x < 1 := by
  unfold sigmoid
  rw [div_lt_one (by positivity)]
  linarith [Real.exp_pos (-x)]

lemma sigmoid_le_sigmoid {x y : ℝ} (h : x ≤ y) : sigmoid x ≤ sigmoid y := by
  unfold sigmoid
  have h1 : (0 : ℝ) < 1 + Real.exp (-y) := by positivity
  have h2 : 1 + Real.exp (-y) ≤ 1 + Real.exp (-x) := by
    have := Real.exp_le_exp.mpr (neg_le_neg h)
    linarith
  exact one_div_le_one_div_of_le h1 h2

lemma forward_getD (m : MFModel) (ru ri : ℕ → ℕ → ℝ) (users items : List ℕ) (b : ℕ)
    (hb : b < min users.length items.length) :
    (forward m ru ri users items).getD b 0 =
      applyYRange m.y_range (rawPred m (ru b) (ri b) (users.getD b 0) (items.getD b 0)) := by
  have hlen : b < (forward m ru ri users items).length := by
    simpa [forward] using hb
  rw [List.getD_eq_getElem _ _ hlen]
  simp [forward]

lemma dropoutVecFrom_not_training (p : ℝ) (r : ℕ → ℝ) (k : ℕ) (v : List ℝ) :
    dropoutVecFrom false p r k v = v := by
  induction v generalizing k with
  | nil => rfl
  | cons x xs ih => simp [dropoutVecFrom, dropoutElem, ih]

lemma dropoutVecFrom_zero_p (t : Bool) (r : ℕ → ℝ) (hr : ∀ j, 0 ≤ r j) (k : ℕ)
    (v : List ℝ) : dropoutVecFrom t 0 r k v = v := by
  induction v generalizing k with
  | nil => rfl
  | cons x xs ih =>
    have hk : ¬ r k < (0 : ℝ) := not_lt.mpr (hr k)
    cases t <;> simp [dropoutVecFrom, dropoutElem, hk, ih]

lemma dropoutVec_disabled (t : Bool) (p : ℝ) (r : ℕ → ℝ) (v : List ℝ)
    (h : (p = 0 ∧ ∀ j, 0 ≤ r j) ∨ t = false) : dropoutVec t p r v = v := by
  rcases h with ⟨hp, hr⟩ | ht
  · subst hp
    exact dropoutVecFrom_zero_p t r hr 0 v
  · subst ht
    exact dropoutVecFrom_not_training p r 0 v

lemma dropoutVecFrom_zero_vec (t : Bool) (p : ℝ) (r : ℕ → ℝ) (k : ℕ) (v : List ℝ)
    (hv : ∀ x ∈ v, x = 0) : dropoutVecFrom t p r k v = v := by
  induction v generalizing k with
  | nil => rfl
  | cons x xs ih =>
    have hx : x = 0 := hv x (List.mem_cons_self x xs)
    have hxs : ∀ y ∈ xs, y = 0 := fun y hy => hv y (List.mem_cons_of_mem x hy)
    subst hx
    cases t <;> simp [dropoutVecFrom, dropoutElem, ih _ hxs]

lemma dotSum_zero_left (xs ys : List ℝ) (h : ∀ x ∈ xs, x = 0) : dotSum xs ys = 0 := by
  induction xs generalizing ys with
  | nil => simp [dotSum]
  | cons x xs ih =>
    cases ys with
    | nil => simp [dotSum]
    | cons y ys =>
      have hx : x = 0 := h x (List.mem_cons_self x xs)
      have hxs : ∀ z ∈ xs, z = 0 := fun z hz => h z (List.mem_cons_of_mem x hz)
      simp [dotSum] at ih ⊢
      simp [hx, ih ys hxs]

lemma lookupRow_all_zero (table : List (List ℝ)) (u : ℕ)
    (h : ∀ row ∈ table, ∀ x ∈ row, x = 0) : ∀ x ∈ lookupRow table u, x = 0 := by
  unfold lookupRow
  by_cases hu : u < table.length
  · rw [List.getD_eq_getElem _ _ hu]
    exact h _ (List.getElem_mem hu)
  · rw [List.getD_eq_default _ _ (not_lt.mp hu)]
    simp

lemma squeezeLookup_zero (table : List (List ℝ)) (u : ℕ)
    (h : ∀ row ∈ table, ∀ x ∈ row, x = 0) : squeezeLookup table u = 0 := by
  unfold squeezeLookup
  by_cases hu : u < table.length
  · rw [List.getD_eq_getElem _ _ hu]
    by_cases h0 : 0 < (table[u]).length
    · rw [List.getD_eq_getElem _ _ h0]
      exact h _ (List.getElem_mem hu) _ (List.getElem_mem h0)
    · rw [List.getD_eq_default _ _ (not_lt.mp h0)]
  · rw [List.getD_eq_default _ _ (not_lt.mp hu)]
    simp

/-! ### Concrete instances used to witness the theorems -/

/-- A small concrete model in evaluation mode with no output range. -/
def sampleModelNone : MFModel :=
  { num_users := 2
    num_items := 2
    embedding_dim := 2
    dropout_p := 0
    user_embeddings := [[1, 2], [3, 4]]
    item_embeddings := [[5, 6], [7, 8]]
    user_biases := [[0], [0]]
    item_biases := [[0], [0]]
    y_range := none
    training := false }

/-- The same concrete model with output range `(1, 4)` configured. -/
def sampleModelRange : MFModel := { sampleModelNone with y_range := some (1, 4) }

/-- The same concrete model with all-zero embeddings and nonzero biases. -/
def sampleModelZeroEmb : MFModel :=
  { sampleModelNone with
    user_embeddings := [[0, 0], [0, 0]]
    item_embeddings := [[0, 0], [0, 0]]
    user_biases := [[3], [4]]
    item_biases := [[5], [6]] }

/-- Concrete dropout randomness: every uniform sample is `0`. -/
def zeroRand : ℕ → ℕ → ℝ := fun _ _ => 0

/-- Concrete per-coordinate dropout randomness: every sample is `0`. -/
def zeroRand1 : ℕ → ℝ := fun _ => 0

/-! ### Claim theorems -/

/-- Claim C1: for every batch of valid user and item indices of equal
length, with no output range configured, the prediction of `forward` at
each batch position `b` equals the sum over the embedding dimension of
`dropout(user_embeddings[u]) * dropout(item_embeddings[i])`, plus
`user_biases[u]` plus `item_biases[i]`, for the pair `(u, i)` at that
position. -/
theorem claim_C1_raw_score_formula (m : MFModel) (ru ri : ℕ → ℕ → ℝ)
    (users items : List ℕ) (b : ℕ)
    (hnone : m.y_range = none)
    (hlen : users.length = items.length)
    (hb : b < users.length)
    (hu : ∀ u ∈ users, u < m.num_users)
    (hi : ∀ i ∈ items, i < m.num_items) :
    (forward m ru ri users items).getD b 0 =
      (List.zipWith (fun a c => a * c)
          (dropoutVec m.training m.dropout_p (ru b)
            (lookupRow m.user_embeddings (users.getD b 0)))
          (dropoutVec m.training m.dropout_p (ri b)
            (lookupRow m.item_embeddings (items.getD b 0)))).sum
        + squeezeLookup m.user_biases (users.getD b 0)
        + squeezeLookup m.item_biases (items.getD b 0) := by
  have hb' : b < min users.length items.length := by omega
  rw [forward_getD m ru ri users items b hb', hnone]
  rfl

/-- Claim C2: for every batch of valid indices, when an output range
`(lo, hi)` is configured, the prediction of `forward` at each batch
position equals `lo + sigmoid (raw) * (hi - lo)`, where `raw` is the
dot-product-plus-biases score computed before the squash. -/
theorem claim_C2_squash_formula (m : MFModel) (ru ri : ℕ → ℕ → ℝ)
    (users items : List ℕ) (b : ℕ) (lo hi : ℝ)
    (hr : m.y_range = some (lo, hi))
    (hlen : users.length = items.length)
    (hb : b < users.length)
    (hu : ∀ u ∈ users, u < m.num_users)
    (hi2 : ∀ i ∈ items, i < m.num_items) :
    (forward m ru ri users items).getD b 0 =
      lo + sigmoid (rawPred m (ru b) (ri b) (users.getD b 0) (items.getD b 0))
        * (hi - lo) := by
  have hb' : b < min users.length items.length := by omega
  rw [forward_getD m ru ri users items b hb', hr]
  simp [applyYRange]
  ring

/-- Claim C3: for every batch of valid indices and every model state,
when an output range `(lo, hi)` with `lo ≤ hi` is configured, every
prediction of `forward` lies within the closed interval `[lo, hi]`. -/
theorem claim_C3_range_bounds (m : MFModel) (ru ri : ℕ → ℕ → ℝ)
    (users items : List ℕ) (b : ℕ) (lo hi : ℝ)
    (hr : m.y_range = some (lo, hi))
    (hle : lo ≤ hi)
    (hlen : users.length = items.length)
    (hb : b < users.length)
    (hu : ∀ u ∈ users, u < m.num_users)
    (hi2 : ∀ i ∈ items, i < m.num_items) :
    lo ≤ (forward m ru ri users items).getD b 0 ∧
      (forward m ru ri users items).getD b 0 ≤ hi := by
  have hb' : b < min users.length items.length := by omega
  rw [forward_getD m ru ri users items b hb', hr]
  simp only [applyYRange]
  have hpos := sigmoid_pos (rawPred m (ru b) (ri b) (users.getD b 0) (items.getD b 0))
  have hlt := sigmoid_lt_one (rawPred m (ru b) (ri b) (users.getD b 0) (items.getD b 0))
  constructor <;> nlinarith

/-- Claim C6: for every batch of valid user and item index lists of
equal length `n` (including `n = 0`), `forward` returns a prediction
list whose length equals `n`. -/
theorem claim_C6_output_length (m : MFModel) (ru ri : ℕ → ℕ → ℝ)
    (users items : List ℕ)
    (hlen : users.length = items.length)
    (hu : ∀ u ∈ users, u < m.num_users)
    (hi : ∀ i ∈ items, i < m.num_items) :
    (forward m ru ri users items).length = users.length := by
  simp [forward, hlen]

/-- Claim C8: the output-range post-processing applied by `forward` when
`y_range = (lo, hi)` is configured is monotonic in the raw score: for
raw scores `s1 ≤ s2` and `lo ≤ hi`, the squashed prediction for `s1` is
at most the squashed prediction for `s2`.  (The squash `applyYRange` is
a fixed function of the configured range and the raw score alone, so it
introduces no learned parameters.) -/
theorem claim_C8_squash_monotone (lo hi s1 s2 : ℝ)
    (hle : lo ≤ hi) (hs : s1 ≤ s2) :
    applyYRange (some (lo, hi)) s1 ≤ applyYRange (some (lo, hi)) s2 := by
  simp only [applyYRange]
  have hmono := sigmoid_le_sigmoid hs
  nlinarith

/-- Claim C4: for every valid pair `(u, i)`, when dropout is disabled
(dropout probability zero, with uniform samples in `[0, 1)`, or
evaluation mode), both bias tables are all zero and no output range is
configured, the score of `forward` for `(u, i)` equals the dot product
of user embedding row `u` and item embedding row `i`. -/
theorem claim_C4_dot_product (m : MFModel) (ru ri : ℕ → ℝ) (u i : ℕ)
    (hnone : m.y_range = none)
    (hdrop : (m.dropout_p = 0 ∧ (∀ k, 0 ≤ ru k) ∧ (∀ k, 0 ≤ ri k)) ∨
      m.training = false)
    (hub : ∀ row ∈ m.user_biases, ∀ x ∈ row, x = 0)
    (hib : ∀ row ∈ m.item_biases, ∀ x ∈ row, x = 0)
    (hu : u < m.num_users) (hi : i < m.num_items) :
    (forward m (fun _ => ru) (fun _ => ri) [u] [i]).getD 0 0 =
      dotSum (lookupRow m.user_embeddings u) (lookupRow m.item_embeddings i) := by
  have hb : (0 : ℕ) < min [u].length [i].length := by simp
  rw [forward_getD m (fun _ => ru) (fun _ => ri) [u] [i] 0 hb, hnone]
  have hru : dropoutVec m.training m.dropout_p ru (lookupRow m.user_embeddings u) =
      lookupRow m.user_embeddings u := by
    apply dropoutVec_disabled
    rcases hdrop with ⟨hp, hr, _⟩ | ht
    · exact Or.inl ⟨hp, hr⟩
    · exact Or.inr ht
  have hri : dropoutVec m.training m.dropout_p ri (lookupRow m.item_embeddings i) =
      lookupRow m.item_embeddings i := by
    apply dropoutVec_disabled
    rcases hdrop with ⟨hp, _, hr⟩ | ht
    · exact Or.inl ⟨hp, hr⟩
    · exact Or.inr ht
  simp only [applyYRange, rawPred, List.getD_cons_zero]
  rw [hru, hri, squeezeLookup_zero m.user_biases u hub,
    squeezeLookup_zero m.item_biases i hib]
  ring

/-- Claim C5: in `forward`, dropout is applied to the looked-up user and
item embedding vectors only, never to the bias terms (which enter the
score unmodified), and dropout acts as the identity whenever the model
is not in training mode. -/
theorem claim_C5_dropout_placement (m : MFModel) (p : ℝ) (r : ℕ → ℝ) (v : List ℝ)
    (ru ri : ℕ → ℕ → ℝ) (users items : List ℕ) (b : ℕ)
    (hb : b < min users.length items.length) :
    dropoutVec false p r v = v ∧
    (forward m ru ri users items).getD b 0 =
      applyYRange m.y_range
        (dotSum
            (dropoutVec m.training m.dropout_p (ru b)
              (lookupRow m.user_embeddings (users.getD b 0)))
            (dropoutVec m.training m.dropout_p (ri b)
              (lookupRow m.item_embeddings (items.getD b 0)))
          + squeezeLookup m.user_biases (users.getD b 0)
          + squeezeLookup m.item_biases (items.getD b 0)) :=
  ⟨dropoutVecFrom_not_training p r 0 v, forward_getD m ru ri users items b hb⟩

/-- Claim C7: for every valid pair `(u, i)`, if every entry of both
embedding tables is zero and no output range is configured, the score of
`forward` for `(u, i)` equals `user_biases[u] + item_biases[i]`. -/
theorem claim_C7_bias_only (m : MFModel) (ru ri : ℕ → ℝ) (u i : ℕ)
    (hnone : m.y_range = none)
    (hue : ∀ row ∈ m.user_embeddings, ∀ x ∈ row, x = 0)
    (hie : ∀ row ∈ m.item_embeddings, ∀ x ∈ row, x = 0)
    (hu : u < m.num_users) (hi : i < m.num_items) :
    (forward m (fun _ => ru) (fun _ => ri) [u] [i]).getD 0 0 =
      squeezeLookup m.user_biases u + squeezeLookup m.item_biases i := by
  have hb : (0 : ℕ) < min [u].length [i].length := by simp
  rw [forward_getD m (fun _ => ru) (fun _ => ri) [u] [i] 0 hb, hnone]
  have hrow : ∀ x ∈ lookupRow m.user_embeddings u, x = 0 :=
    lookupRow_all_zero m.user_embeddings u hue
  have hzero : dotSum
      (dropoutVec m.training m.dropout_p ru (lookupRow m.user_embeddings u))
      (dropoutVec m.training m.dropout_p ri (lookupRow m.item_embeddings i)) = 0 := by
    apply dotSum_zero_left
    rw [dropoutVec, dropoutVecFrom_zero_vec m.training m.dropout_p ru 0 _ hrow]
    exact hrow
  simp only [applyYRange, rawPred, List.getD_cons_zero]
  rw [hzero]
  ring

/-- Claim C9: after `_setup_model`, the user bias table has shape
`num_users × 1`, the item bias table has shape `num_items × 1`, and both
bias tables are initialized with every entry equal to zero. -/
theorem claim_C9_bias_init (h : HParams) (uInit iInit : ℕ → ℕ → ℝ) (training : Bool) :
    (setup_model h uInit iInit training).user_biases.length = h.num_users ∧
    (setup_model h uInit iInit training).item_biases.length = h.num_items ∧
    (∀ row ∈ (setup_model h uInit iInit training).user_biases,
      row.length = 1 ∧ ∀ x ∈ row, x = 0) ∧
    (∀ row ∈ (setup_model h uInit iInit training).item_biases,
      row.length = 1 ∧ ∀ x ∈ row, x = 0) := by
  refine ⟨?_, ?_, ?_, ?_⟩
  · simp [setup_model, ZeroEmbedding]
  · simp [setup_model, ZeroEmbedding]
  · intro row hrow
    have hrow2 : row ∈ List.replicate h.num_users (List.replicate 1 (0 : ℝ)) := hrow
    rw [List.eq_of_mem_replicate hrow2]
    simp
  · intro row hrow
    have hrow2 : row ∈ List.replicate h.num_items (List.replicate 1 (0 : ℝ)) := hrow
    rw [List.eq_of_mem_replicate hrow2]
    simp

/-- Claim C10: when an output range `(lo, hi)` with `lo < hi` is
configured, predictions of `forward` never attain the endpoints: each
prediction lies strictly between `lo` and `hi` in exact real arithmetic,
because the sigmoid of a finite raw score lies strictly in `(0, 1)`. -/
theorem claim_C10_strict_bounds (m : MFModel) (ru ri : ℕ → ℕ → ℝ)
    (users items : List ℕ) (b : ℕ) (lo hi : ℝ)
    (hr : m.y_range = some (lo, hi))
    (hlt : lo < hi)
    (hlen : users.length = items.length)
    (hb : b < users.length)
    (hu : ∀ u ∈ users, u < m.num_users)
    (hi2 : ∀ i ∈ items, i < m.num_items) :
    lo < (forward m ru ri users items).getD b 0 ∧
      (forward m ru ri users items).getD b 0 < hi := by
  have hb' : b < min users.length items.length := by omega
  rw [forward_getD m ru ri users items b hb', hr]
  simp only [applyYRange]
  have hpos := sigmoid_pos (rawPred m (ru b) (ri b) (users.getD b 0) (items.getD b 0))
  have hlt1 := sigmoid_lt_one (rawPred m (ru b) (ri b) (users.getD b 0) (items.getD b 0))
  constructor <;> nlinarith

/-! ### Witnesses -/

/-- Witness for C1: the raw-score formula at a concrete model and batch. -/
theorem claim_C1_raw_score_formula_witness :
    sampleModelNone.y_range = none ∧
    ([0, 1] : List ℕ).length = ([1, 0] : List ℕ).length ∧
    0 < ([0, 1] : List ℕ).length ∧
    (∀ u ∈ ([0, 1] : List ℕ), u < sampleModelNone.num_users) ∧
    (∀ i ∈ ([1, 0] : List ℕ), i < sampleModelNone.num_items) ∧
    (forward sampleModelNone zeroRand zeroRand [0, 1] [1, 0]).getD 0 0 =
      (List.zipWith (fun a c => a * c)
          (dropoutVec sampleModelNone.training sampleModelNone.dropout_p (zeroRand 0)
            (lookupRow sampleModelNone.user_embeddings (([0, 1] : List ℕ).getD 0 0)))
          (dropoutVec sampleModelNone.training sampleModelNone.dropout_p (zeroRand 0)
            (lookupRow sampleModelNone.item_embeddings (([1, 0] : List ℕ).getD 0 0)))).sum
        + squeezeLookup sampleModelNone.user_biases (([0, 1] : List ℕ).getD 0 0)
        + squeezeLookup sampleModelNone.item_biases (([1, 0] : List ℕ).getD 0 0) :=
  ⟨rfl, rfl, by decide, by decide, by decide,
    claim_C1_raw_score_formula sampleModelNone zeroRand zeroRand [0, 1] [1, 0] 0 rfl rfl
      (by decide) (by decide) (by decide)⟩

/-- Witness for C2: the squash formula at a concrete model and batch. -/
theorem claim_C2_squash_formula_witness :
    sampleModelRange.y_range = some (1, 4) ∧
    ([0, 1] : List ℕ).length = ([1, 0] : List ℕ).length ∧
    0 < ([0, 1] : List ℕ).length ∧
    (∀ u ∈ ([0, 1] : List ℕ), u < sampleModelRange.num_users) ∧
    (∀ i ∈ ([1, 0] : List ℕ), i < sampleModelRange.num_items) ∧
    (forward sampleModelRange zeroRand zeroRand [0, 1] [1, 0]).getD 0 0 =
      1 + sigmoid (rawPred sampleModelRange (zeroRand 0) (zeroRand 0)
        (([0, 1] : List ℕ).getD 0 0) (([1, 0] : List ℕ).getD 0 0)) * (4 - 1) :=
  ⟨rfl, rfl, by decide, by decide, by decide,
    claim_C2_squash_formula sampleModelRange zeroRand zeroRand [0, 1] [1, 0] 0 1 4 rfl rfl
      (by decide) (by decide) (by decide)⟩

/-- Witness for C3: the closed-interval bounds at a concrete model. -/
theorem claim_C3_range_bounds_witness :
    sampleModelRange.y_range = some (1, 4) ∧
    (1 : ℝ) ≤ 4 ∧
    ([0, 1] : List ℕ).length = ([1, 0] : List ℕ).length ∧
    0 < ([0, 1] : List ℕ).length ∧
    (∀ u ∈ ([0, 1] : List ℕ), u < sampleModelRange.num_users) ∧
    (∀ i ∈ ([1, 0] : List ℕ), i < sampleModelRange.num_items) ∧
    (1 ≤ (forward sampleModelRange zeroRand zeroRand [0, 1] [1, 0]).getD 0 0 ∧
      (forward sampleModelRange zeroRand zeroRand [0, 1] [1, 0]).getD 0 0 ≤ 4) :=
  ⟨rfl, by norm_num, rfl, by decide, by decide, by decide,
    claim_C3_range_bounds sampleModelRange zeroRand zeroRand [0, 1] [1, 0] 0 1 4 rfl
      (by norm_num) rfl (by decide) (by decide) (by decide)⟩

/-- Witness for C4: the dot-product identity at a concrete model in
evaluation mode with zero biases. -/
theorem claim_C4_dot_product_witness :
    sampleModelNone.y_range = none ∧
    sampleModelNone.training = false ∧
    (∀ row ∈ sampleModelNone.user_biases, ∀ x ∈ row, x = 0) ∧
    (∀ row ∈ sampleModelNone.item_biases, ∀ x ∈ row, x = 0) ∧
    0 < sampleModelNone.num_users ∧
    1 < sampleModelNone.num_items ∧
    (forward sampleModelNone (fun _ => zeroRand1) (fun _ => zeroRand1) [0] [1]).getD 0 0 =
      dotSum (lookupRow sampleModelNone.user_embeddings 0)
        (lookupRow sampleModelNone.item_embeddings 1) :=
  ⟨rfl, rfl, by simp [sampleModelNone], by simp [sampleModelNone], by decide, by decide,
    claim_C4_dot_product sampleModelNone zeroRand1 zeroRand1 0 1 rfl (Or.inr rfl)
      (by simp [sampleModelNone]) (by simp [sampleModelNone]) (by decide) (by decide)⟩

/-- Witness for C5: dropout placement at a concrete model and batch. -/
theorem claim_C5_dropout_placement_witness :
    0 < min ([0, 1] : List ℕ).length ([1, 0] : List ℕ).length ∧
    (dropoutVec false (1 / 2) zeroRand1 [1, 2] = [1, 2] ∧
    (forward sampleModelNone zeroRand zeroRand [0, 1] [1, 0]).getD 0 0 =
      applyYRange sampleModelNone.y_range
        (dotSum
            (dropoutVec sampleModelNone.training sampleModelNone.dropout_p (zeroRand 0)
              (lookupRow sampleModelNone.user_embeddings (([0, 1] : List ℕ).getD 0 0)))
            (dropoutVec sampleModelNone.training sampleModelNone.dropout_p (zeroRand 0)
              (lookupRow sampleModelNone.item_embeddings (([1, 0] : List ℕ).getD 0 0)))
          + squeezeLookup sampleModelNone.user_biases (([0, 1] : List ℕ).getD 0 0)
          + squeezeLookup sampleModelNone.item_biases (([1, 0] : List ℕ).getD 0 0))) :=
  ⟨by decide,
    claim_C5_dropout_placement sampleModelNone (1 / 2) zeroRand1 [1, 2] zeroRand zeroRand
      [0, 1] [1, 0] 0 (by decide)⟩

/-- Witness for C6: output length at a concrete batch of length two. -/
theorem claim_C6_output_length_witness :
    ([0, 1] : List ℕ).length = ([1, 0] : List ℕ).length ∧
    (∀ u ∈ ([0, 1] : List ℕ), u < sampleModelNone.num_users) ∧
    (∀ i ∈ ([1, 0] : List ℕ), i < sampleModelNone.num_items) ∧
    (forward sampleModelNone zeroRand zeroRand [0, 1] [1, 0]).length =
      ([0, 1] : List ℕ).length :=
  ⟨rfl, by decide, by decide,
    claim_C6_output_length sampleModelNone zeroRand zeroRand [0, 1] [1, 0] rfl
      (by decide) (by decide)⟩

/-- Witness for C7: the bias-only identity at a concrete model with
all-zero embedding tables. -/
theorem claim_C7_bias_only_witness :
    sampleModelZeroEmb.y_range = none ∧
    (∀ row ∈ sampleModelZeroEmb.user_embeddings, ∀ x ∈ row, x = 0) ∧
    (∀ row ∈ sampleModelZeroEmb.item_embeddings, ∀ x ∈ row, x = 0) ∧
    0 < sampleModelZeroEmb.num_users ∧
    1 < sampleModelZeroEmb.num_items ∧
    (forward sampleModelZeroEmb (fun _ => zeroRand1) (fun _ => zeroRand1) [0] [1]).getD 0 0 =
      squeezeLookup sampleModelZeroEmb.user_biases 0
        + squeezeLookup sampleModelZeroEmb.item_biases 1 :=
  ⟨rfl, by simp [sampleModelZeroEmb, sampleModelNone], by simp [sampleModelZeroEmb, sampleModelNone],
    by decide, by decide,
    claim_C7_bias_only sampleModelZeroEmb zeroRand1 zeroRand1 0 1 rfl
      (by simp [sampleModelZeroEmb, sampleModelNone])
      (by simp [sampleModelZeroEmb, sampleModelNone]) (by decide) (by decide)⟩

/-- Witness for C8: monotonicity of the squash at concrete scores. -/
theorem claim_C8_squash_monotone_witness :
    (1 : ℝ) ≤ 4 ∧ (0 : ℝ) ≤ 2 ∧
    applyYRange (some (1, 4)) 0 ≤ applyYRange (some (1, 4)) 2 :=
  ⟨by norm_num, by norm_num,
    claim_C8_squash_monotone 1 4 0 2 (by norm_num) (by norm_num)⟩

/-- Witness for C10: the strict bounds at a concrete model. -/
theorem claim_C10_strict_bounds_witness :
    sampleModelRange.y_range = some (1, 4) ∧
    (1 : ℝ) < 4 ∧
    ([0, 1] : List ℕ).length = ([1, 0] : List ℕ).length ∧
    0 < ([0, 1] : List ℕ).length ∧
    (∀ u ∈ ([0, 1] : List ℕ), u < sampleModelRange.num_users) ∧
    (∀ i ∈ ([1, 0] : List ℕ), i < sampleModelRange.num_items) ∧
    (1 < (forward sampleModelRange zeroRand zeroRand [0, 1] [1, 0]).getD 0 0 ∧
      (forward sampleModelRange zeroRand zeroRand [0, 1] [1, 0]).getD 0 0 < 4) :=
  ⟨rfl, by norm_num, rfl, by decide, by decide, by decide,
    claim_C10_strict_bounds sampleModelRange zeroRand zeroRand [0, 1] [1, 0] 0 1 4 rfl
      (by norm_num) rfl (by decide) (by decide) (by decide)⟩

end

end Collie
